import Mathlib

/-!
Shallow embedding of the Telegram AI News Assistant core (news_manager.py,
database.py, telegram_bot.py, telegram_bot_v2.py).

The SQLite store is modelled as lists of rows; timestamps are integers
(minutes); `CURRENT_TIMESTAMP` becomes an explicit `now` parameter; the
network feed fetcher (`feedparser.parse`) becomes an explicit function
argument `fetch : String → Except Unit (List Entry)` (`.error` models a
fetch/parse failure that raises inside the `try` block, `.ok` a parsed
feed with its list of entries).

The repository's `schema.sql` is not part of the source tree; the table
key constraints it declares are modelled from the spec (section 6):
`DeliveryReceipt` is UNIQUE on (subscriber, item), `SubscriberSchedule`
and the preference table are keyed by subscriber, sources are keyed by
`feed_id`.  Where a constraint matters to a claim this is noted on the
definition.
-/

namespace NewsBot

/-- Row of the `news_items` table (database.py / news_manager.py). -/
structure NewsItem where
  news_id : Nat
  feed_id : Nat
  title : String
  link : String
  description : String
  pub_date : Int
  deriving Repr, DecidableEq

/-- Row of the `rss_feeds` table. -/
structure Feed where
  feed_id : Nat
  feed_url : String
  feed_name : String
  last_updated : Option Int
  deriving Repr, DecidableEq

/-- Row of the `user_schedule` table (per-user delivery policy). -/
structure Schedule where
  enabled : Bool
  interval_minutes : Int
  last_delivery : Option Int
  deriving Repr, DecidableEq

/-- Row of the `users` table. -/
structure UserRow where
  user_id : Nat
  username : String
  email : String
  deriving Repr, DecidableEq

/-- The whole SQLite database state.  `user_feeds` are (user_id, feed_id)
subscription rows, `deliveries` are (user_id, news_id) rows of
`news_delivery`, `schedules` and `prefs` are keyed by user_id
(`prefs` keeps the `max_news_items` column of `user_preferences`, the only
one the embedded operations read).  The `next_*` counters model SQLite's
AUTOINCREMENT row ids (`cursor.lastrowid`). -/
structure DB where
  users : List UserRow
  feeds : List Feed
  items : List NewsItem
  user_feeds : List (Nat × Nat)
  deliveries : List (Nat × Nat)
  schedules : List (Nat × Schedule)
  prefs : List (Nat × Nat)
  next_user_id : Nat
  next_feed_id : Nat
  next_news_id : Nat
  deriving Repr, DecidableEq

/-- The empty database (fresh schema, no rows; row ids start at 1 as in
SQLite). -/
def emptyDB : DB :=
  ⟨[], [], [], [], [], [], [], 1, 1, 1⟩

/-- SELECT user_id FROM users WHERE username = ? (first match). -/
def findUserByName (db : DB) (name : String) : Option Nat :=
  (db.users.find? (fun u => u.username == name)).map UserRow.user_id

/-- SELECT user_id FROM users WHERE email = ? (first match). -/
def findUserByEmail (db : DB) (email : String) : Option Nat :=
  (db.users.find? (fun u => u.email == email)).map UserRow.user_id

/-- NewsManager.add_user (news_manager.py lines 51-96) as called from
`_get_db_user_id`: username is `user_<telegram id>`, email is the
placeholder `<telegram id>@telegram.user`.  Inserts the user row if the
username is unknown, then `INSERT OR IGNORE`s a default schedule row
(disabled, 60 minutes) and a default preference row (max_news_items 5);
the OR IGNORE is modelled as insert-if-key-absent per the spec's
one-row-per-subscriber constraint.  Returns the database user id. -/
def add_user (db : DB) (tid : String) : DB × Nat :=
  let username := "user_" ++ tid
  let email := tid ++ "@telegram.user"
  let first : DB × Nat :=
    match findUserByName db username with
    | some uid => (db, uid)
    | none =>
        ({ db with users := db.users ++ [⟨db.next_user_id, username, email⟩],
                   next_user_id := db.next_user_id + 1 }, db.next_user_id)
  let db1 := first.1
  let uid := first.2
  let db2 :=
    if db1.schedules.any (fun p => p.1 == uid) then db1
    else { db1 with schedules := db1.schedules ++ [(uid, (⟨false, 60, none⟩ : Schedule))] }
  let db3 :=
    if db2.prefs.any (fun p => p.1 == uid) then db2
    else { db2 with prefs := db2.prefs ++ [(uid, 5)] }
  (db3, uid)

/-- NewsManager._get_db_user_id (news_manager.py lines 474-499): resolve a
Telegram id to a database user id, looking up by username, then by the
email placeholder, and otherwise registering the user on the fly via
`add_user`.  The fallback registration is a state change performed by a
lookup. -/
def get_db_user_id (db : DB) (tid : String) : DB × Option Nat :=
  match findUserByName db ("user_" ++ tid) with
  | some uid => (db, some uid)
  | none =>
      match findUserByEmail db (tid ++ "@telegram.user") with
      | some uid => (db, some uid)
      | none =>
          let p := add_user db tid
          (p.1, some p.2)

/-- Join condition of the undelivered-news query: the item's feed exists in
`rss_feeds` and the user has a `user_feeds` subscription row for it. -/
def subscribedFeed (db : DB) (uid : Nat) (it : NewsItem) : Bool :=
  db.feeds.any (fun f => f.feed_id == it.feed_id) &&
  db.user_feeds.any (fun p => p.1 == uid && p.2 == it.feed_id)

/-- LEFT JOIN news_delivery ... WHERE nd.delivery_id IS NULL: no delivery
receipt row for this (user, item) pair. -/
def undelivered (db : DB) (uid : Nat) (it : NewsItem) : Bool :=
  !(db.deliveries.any (fun p => p.1 == uid && p.2 == it.news_id))

/-- An item the undelivered-news query may return for `uid`. -/
def eligibleItem (db : DB) (uid : Nat) (it : NewsItem) : Bool :=
  subscribedFeed db uid it && undelivered db uid it

/-- ORDER BY ni.pub_date DESC as a relation: `a` comes no later than `b`. -/
def itemLE (a b : NewsItem) : Prop := b.pub_date ≤ a.pub_date

instance : DecidableRel itemLE :=
  fun a b => inferInstanceAs (Decidable (b.pub_date ≤ a.pub_date))

instance : IsTotal NewsItem itemLE :=
  ⟨fun a b => le_total b.pub_date a.pub_date⟩

instance : IsTrans NewsItem itemLE :=
  ⟨fun _ _ _ h1 h2 => le_trans h2 h1⟩

/-- SELECT max_news_items FROM user_preferences WHERE user_id = ?, with the
code's default of 5 when no row exists (news_manager.py
get_user_preferences). -/
def maxNewsItems (db : DB) (uid : Nat) : Nat :=
  match db.prefs.find? (fun p => p.1 == uid) with
  | some p => p.2
  | none => 5

/-- The SQL body of NewsManager.get_undelivered_news (news_manager.py lines
298-307): items joined with the subscription tables, minus receipted
items, ORDER BY pub_date DESC, LIMIT `limit`.  The SQL join multiplies no
rows because feeds are keyed by `feed_id` and `user_feeds` holds one row
per (user, feed) pair (subscribe_user_to_feed checks before inserting). -/
def get_undelivered_news_q (db : DB) (uid : Nat) (limit : Nat) : List NewsItem :=
  (List.insertionSort itemLE (db.items.filter (fun it => eligibleItem db uid it))).take limit

/-- NewsManager.get_undelivered_news (news_manager.py lines 286-313): resolve
the Telegram id (side effect included), read `max_news_items` from the
preferences, run the query.  Returns the possibly-extended database and the
result rows. -/
def nm_get_undelivered_news (db : DB) (tid : String) : DB × List NewsItem :=
  let p := get_db_user_id db tid
  match p.2 with
  | none => (p.1, [])
  | some uid => (p.1, get_undelivered_news_q p.1 uid (maxNewsItems p.1 uid))

/-- INSERT OR IGNORE INTO news_delivery (user_id, news_id): a no-op when the
pair is already present (UNIQUE(subscriber, item) modelled from the spec,
section 6). -/
def insert_or_ignore_delivery (ds : List (Nat × Nat)) (uid nid : Nat) : List (Nat × Nat) :=
  if ds.any (fun p => p.1 == uid && p.2 == nid) then ds else ds ++ [(uid, nid)]

/-- Database.mark_news_delivered (database.py lines 56-62): a plain INSERT
INTO news_delivery.  Under the UNIQUE(subscriber, item) constraint
(modelled from the spec, section 6) a duplicate pair makes the INSERT
raise sqlite3.IntegrityError, which propagates to the caller; the model
returns `Except.error` for that raise. -/
def db_mark_news_delivered (ds : List (Nat × Nat)) (uid nid : Nat) :
    Except String (List (Nat × Nat)) :=
  if ds.any (fun p => p.1 == uid && p.2 == nid) then
    Except.error "UNIQUE constraint failed: news_delivery.user_id, news_delivery.news_id"
  else Except.ok (ds ++ [(uid, nid)])

/-- NewsManager.mark_news_delivered (news_manager.py lines 315-332): resolve
the Telegram id, INSERT OR IGNORE the receipt, return True. -/
def nm_mark_news_delivered (db : DB) (tid : String) (nid : Nat) : DB × Bool :=
  let p := get_db_user_id db tid
  match p.2 with
  | none => (p.1, false)
  | some uid =>
      ({ p.1 with deliveries := insert_or_ignore_delivery p.1.deliveries uid nid }, true)

/-- UPDATE user_schedule SET ... WHERE user_id = ?: apply `f` to every
schedule row keyed by `uid` (exactly one row in a well-formed store). -/
def updateSchedule (db : DB) (uid : Nat) (f : Schedule → Schedule) : DB :=
  { db with schedules := db.schedules.map (fun p => if p.1 == uid then (p.1, f p.2) else p) }

/-- SELECT ... FROM user_schedule WHERE user_id = ? (first match). -/
def lookupSchedule (db : DB) (uid : Nat) : Option Schedule :=
  (db.schedules.find? (fun p => p.1 == uid)).map Prod.snd

/-- Rowcount test of the user's schedule UPDATE (whether a row exists). -/
def scheduleRowExists (db : DB) (uid : Nat) : Bool :=
  db.schedules.any (fun p => p.1 == uid)

/-- NewsManager.set_schedule (news_manager.py lines 372-402): resolve the
Telegram id, reject intervals outside the presets {30, 60, 180, 1440}
returning False with no change, otherwise UPDATE the interval (INSERT a
disabled row when none exists) and return True. -/
def nm_set_schedule (db : DB) (tid : String) (interval : Int) : DB × Bool :=
  let p := get_db_user_id db tid
  match p.2 with
  | none => (p.1, false)
  | some uid =>
      if interval == 30 || interval == 60 || interval == 180 || interval == 1440 then
        let db2 :=
          if scheduleRowExists p.1 uid then
            updateSchedule p.1 uid (fun s => { s with interval_minutes := interval })
          else { p.1 with schedules := p.1.schedules ++ [(uid, (⟨false, interval, none⟩ : Schedule))] }
        (db2, true)
      else (p.1, false)

/-- telegram_bot.py set_schedule (lines 245-288): the command handler works
directly on the Telegram user id; it rejects intervals below 5 minutes
(reply + return, no database write), otherwise UPDATEs the interval
(INSERT a disabled row when none exists).  The Bool is whether the
interval was persisted. -/
def bot_set_schedule (db : DB) (uid : Nat) (interval : Int) : DB × Bool :=
  if interval < 5 then (db, false)
  else
    let db2 :=
      if scheduleRowExists db uid then
        updateSchedule db uid (fun s => { s with interval_minutes := interval })
      else { db with schedules := db.schedules ++ [(uid, (⟨false, interval, none⟩ : Schedule))] }
    (db2, true)

/-- NewsManager.enable_auto_delivery (news_manager.py lines 404-430): resolve
the Telegram id, then UPDATE user_schedule SET enabled = 1, last_delivery =
CURRENT_TIMESTAMP; when no row exists INSERT (uid, enabled, 60 minutes,
now). -/
def nm_enable_auto_delivery (db : DB) (tid : String) (now : Int) : DB × Bool :=
  let p := get_db_user_id db tid
  match p.2 with
  | none => (p.1, false)
  | some uid =>
      let db2 :=
        if scheduleRowExists p.1 uid then
          updateSchedule p.1 uid (fun s => { s with enabled := true, last_delivery := some now })
        else { p.1 with schedules := p.1.schedules ++ [(uid, (⟨true, 60, some now⟩ : Schedule))] }
      (db2, true)

/-- NewsManager.disable_auto_delivery (news_manager.py lines 432-451):
resolve the Telegram id, then UPDATE user_schedule SET enabled = 0 (no
other column touched, no insert fallback). -/
def nm_disable_auto_delivery (db : DB) (tid : String) : DB × Bool :=
  let p := get_db_user_id db tid
  match p.2 with
  | none => (p.1, false)
  | some uid => (updateSchedule p.1 uid (fun s => { s with enabled := false }), true)

/-- UPDATE user_schedule SET last_delivery = CURRENT_TIMESTAMP WHERE
user_id = ? — the SQL of NewsManager.update_last_delivery once the user id
is resolved. -/
def update_last_delivery (db : DB) (uid : Nat) (now : Int) : DB :=
  updateSchedule db uid (fun s => { s with last_delivery := some now })

/-- NewsManager.update_last_delivery (news_manager.py lines 453-472): resolve
the Telegram-id string through `_get_db_user_id` (side effect included),
then stamp the resolved user's schedule row. -/
def nm_update_last_delivery (db : DB) (tid : String) (now : Int) : DB × Bool :=
  let p := get_db_user_id db tid
  match p.2 with
  | none => (p.1, false)
  | some u => (update_last_delivery p.1 u now, true)

/-- One raw feed entry as normalized by `_fetch_feed_items` (title, link,
description with the fallback chain already applied, parsed or defaulted
publication time). -/
structure Entry where
  title : String
  link : String
  description : String
  pub_date : Int
  deriving Repr, DecidableEq

/-- SELECT news_id FROM news_items WHERE link = ? (the dedup probe). -/
def linkExists (db : DB) (l : String) : Bool :=
  db.items.any (fun it => it.link == l)

/-- Per-entry body of the `_fetch_feed_items` loop (news_manager.py lines
233-268): skip the entry when its link is already stored, otherwise INSERT
the news row and bump the new-item counter. -/
def insertEntryIfNew (fid : Nat) (p : DB × Nat) (e : Entry) : DB × Nat :=
  if linkExists p.1 e.link then p
  else
    ({ p.1 with
        items := p.1.items ++ [⟨p.1.next_news_id, fid, e.title, e.link, e.description, e.pub_date⟩],
        next_news_id := p.1.next_news_id + 1 },
     p.2 + 1)

/-- UPDATE rss_feeds SET last_updated = CURRENT_TIMESTAMP WHERE feed_id = ?. -/
def update_feed_last_updated (db : DB) (fid : Nat) (now : Int) : DB :=
  { db with feeds := db.feeds.map (fun f => if f.feed_id == fid then { f with last_updated := some now } else f) }

/-- NewsManager._fetch_feed_items (news_manager.py lines 227-284): parse the
feed; on a raised fetch/parse error, roll back and return 0 with the store
unchanged; otherwise insert every entry whose link is new, stamp the
feed's last_updated and return the number of rows inserted. -/
def fetch_feed_items (fetch : String → Except Unit (List Entry)) (now : Int)
    (db : DB) (fid : Nat) (url : String) : DB × Nat :=
  match fetch url with
  | Except.error _ => (db, 0)
  | Except.ok entries =>
      let p := entries.foldl (insertEntryIfNew fid) (db, 0)
      (update_feed_last_updated p.1 fid now, p.2)

/-- Body of the check_feeds loop: poll one feed and add its new-item count to
the running total. -/
def checkFeedsStep (fetch : String → Except Unit (List Entry)) (now : Int)
    (p : DB × Nat) (f : Feed) : DB × Nat :=
  let q := fetch_feed_items fetch now p.1 f.feed_id f.feed_url
  (q.1, p.2 + q.2)

/-- NewsManager.check_feeds (news_manager.py lines 210-225): snapshot the
feed list, run `_fetch_feed_items` on each feed and sum the per-feed
new-item counts. -/
def check_feeds (fetch : String → Except Unit (List Entry)) (now : Int) (db : DB) : DB × Nat :=
  db.feeds.foldl (checkFeedsStep fetch now) (db, 0)

/-- SELECT feed_id FROM rss_feeds WHERE feed_url = ? (first match). -/
def findFeedByUrl (db : DB) (url : String) : Option Nat :=
  (db.feeds.find? (fun f => f.feed_url == url)).map Feed.feed_id

/-- NewsManager.add_feed (news_manager.py lines 98-136): parse the feed and
return 0 when the fetch fails or yields no entries; return the existing
feed_id unchanged when the url is already registered; otherwise INSERT the
feed row, run the initial `_fetch_feed_items`, and return the new id.  The
display-name fallback (feed title / domain) is passed in as `name`. -/
def add_feed (fetch : String → Except Unit (List Entry)) (now : Int)
    (db : DB) (url : String) (name : String) : DB × Nat :=
  match fetch url with
  | Except.error _ => (db, 0)
  | Except.ok entries =>
      if entries.isEmpty then (db, 0)
      else
        match findFeedByUrl db url with
        | some fid => (db, fid)
        | none =>
            let fid := db.next_feed_id
            let db1 := { db with feeds := db.feeds ++ [⟨fid, url, name, none⟩],
                                 next_feed_id := db.next_feed_id + 1 }
            let q := fetch_feed_items fetch now db1 fid url
            (q.1, fid)

/-- Due test of the delivery loops (telegram_bot_v2.py lines 799-805,
telegram_bot.py lines 373-379): with no recorded last delivery the user is
due; otherwise skip while now < last_delivery + interval. -/
def isDue (now : Int) (last : Option Int) (interval : Int) : Bool :=
  match last with
  | none => true
  | some t => decide (t + interval ≤ now)

/-- JOIN users u ON us.user_id = u.user_id of the scheduler's SELECT. -/
def userRowExists (db : DB) (uid : Nat) : Bool :=
  db.users.any (fun u => u.user_id == uid)

/-- Receipt writes of one delivery batch: the loop calls
`mark_news_delivered(str(user_id), ...)` for each sent item in batch order;
every call resolves the stringified id through `_get_db_user_id` again. -/
def deliverBatch (db : DB) (tid : String) (batch : List NewsItem) : DB :=
  batch.foldl (fun d it => (nm_mark_news_delivered d tid it.news_id).1) db

/-- Per-user body of check_and_deliver_news (telegram_bot_v2.py lines
798-865): skip a disabled or not-yet-due user (both checks run on the
snapshot row, before any other call); otherwise fetch the undelivered
batch via `get_undelivered_news(str(user_id))` — the **database** user id
is stringified and pushed back through `_get_db_user_id`, whose
lookup-or-register side effect is part of the call, so the batch, the
receipts and the final stamp all target the resolved id, which need not be
the subscriber; an empty batch is skipped keeping whatever the resolution
wrote; otherwise every item is sent, receipted via
`mark_news_delivered(str(user_id), ...)`, and
`update_last_delivery(str(user_id))` stamps the resolved user's schedule
row.  The `get_user_preferences(str(user_id))` read between (used only to
format the message) is a pure read by then — the first resolution has
already registered the id — and is not modelled. -/
def tickUser (now : Int) (db : DB) (uid : Nat) : DB :=
  match lookupSchedule db uid with
  | none => db
  | some s =>
      if !s.enabled then db
      else if !isDue now s.last_delivery s.interval_minutes then db
      else
        let q := nm_get_undelivered_news db (toString uid)
        if q.2.isEmpty then q.1
        else
          let batch := q.2.take 5
          (nm_update_last_delivery (deliverBatch q.1 (toString uid) batch) (toString uid) now).1

/-- check_and_deliver_news (telegram_bot_v2.py lines 786-868): snapshot the
enabled schedule rows that join to a user row, then run the per-user body
for each. -/
def check_and_deliver_news (now : Int) (db : DB) : DB :=
  ((db.schedules.filter (fun p => p.2.enabled && userRowExists db p.1)).map Prod.fst).foldl
    (tickUser now) db

/-! Helper lemmas shared by the claim theorems. -/

/-- A schedule row that `lookupSchedule` finds makes the UPDATE rowcount
positive. -/
theorem scheduleRowExists_of_lookup {db : DB} {uid : Nat} {s : Schedule}
    (h : lookupSchedule db uid = some s) : scheduleRowExists db uid = true := by
  unfold lookupSchedule at h
  unfold scheduleRowExists
  cases hf : db.schedules.find? (fun p => p.1 == uid) with
  | none => rw [hf] at h; cases h
  | some a =>
      have hp : (a.1 == uid) = true := List.find?_some (p := fun (q : Nat × Schedule) => q.1 == uid) hf
      exact List.any_eq_true.2 ⟨a, List.mem_of_find?_eq_some hf, hp⟩

/-- UPDATE ... WHERE user_id = ? rewrites exactly the looked-up row. -/
theorem find?_map_keyed (l : List (Nat × Schedule)) (uid : Nat) (f : Schedule → Schedule) :
    (l.map (fun p => if p.1 == uid then (p.1, f p.2) else p)).find? (fun p => p.1 == uid)
      = (l.find? (fun p => p.1 == uid)).map (fun p => (p.1, f p.2)) := by
  induction l with
  | nil => rfl
  | cons a t ih =>
      rw [List.map_cons]
      by_cases h : (a.1 == uid) = true
      · rw [if_pos h]
        rw [List.find?_cons_of_pos (p := fun (q : Nat × Schedule) => q.1 == uid) _ h]
        have h2 : (((a.1, f a.2) : Nat × Schedule).1 == uid) = true := h
        rw [List.find?_cons_of_pos (p := fun (q : Nat × Schedule) => q.1 == uid) _ h2, Option.map_some']
      · have hn : ¬ ((a.1 == uid) = true) := h
        rw [if_neg h]
        rw [List.find?_cons_of_neg (p := fun (q : Nat × Schedule) => q.1 == uid) _ hn,
            List.find?_cons_of_neg (p := fun (q : Nat × Schedule) => q.1 == uid) _ hn, ih]

/-- Effect of `updateSchedule` on the same user's looked-up row. -/
theorem lookupSchedule_updateSchedule (db : DB) (uid : Nat) (f : Schedule → Schedule) :
    lookupSchedule (updateSchedule db uid f) uid = (lookupSchedule db uid).map f := by
  unfold lookupSchedule updateSchedule
  simp only [find?_map_keyed]
  cases db.schedules.find? (fun p => p.1 == uid) <;> rfl

/-- A find that already succeeds is unaffected by rows appended behind it. -/
theorem find?_append_some {α : Type} (l l₂ : List α) (p : α → Bool) (a : α)
    (h : l.find? p = some a) : (l ++ l₂).find? p = some a := by
  rw [List.find?_append, h]
  rfl

/-- Looking up an existing schedule row is unaffected by appended rows. -/
theorem lookupSchedule_schedules_append {db db' : DB} {uid : Nat} {s : Schedule}
    (tail : List (Nat × Schedule)) (hsch : db'.schedules = db.schedules ++ tail)
    (hs : lookupSchedule db uid = some s) : lookupSchedule db' uid = some s := by
  unfold lookupSchedule at hs ⊢
  rw [hsch]
  cases hf : db.schedules.find? (fun p => p.1 == uid) with
  | none => rw [hf] at hs; cases hs
  | some a =>
      rw [hf] at hs
      rw [find?_append_some db.schedules tail (fun p => p.1 == uid) a hf]
      exact hs

/-- `add_user` at most appends one schedule row (the INSERT OR IGNORE of the
default policy). -/
theorem add_user_schedules (db : DB) (tid : String) :
    (add_user db tid).1.schedules = db.schedules ∨
    ∃ r, (add_user db tid).1.schedules = db.schedules ++ [r] := by
  cases h1 : findUserByName db ("user_" ++ tid) with
  | some u =>
      simp only [add_user, h1]
      split_ifs <;> first | exact Or.inl rfl | exact Or.inr ⟨_, rfl⟩
  | none =>
      simp only [add_user, h1]
      split_ifs <;> first | exact Or.inl rfl | exact Or.inr ⟨_, rfl⟩

/-- `_get_db_user_id` at most appends one schedule row (via its fallback
`add_user`). -/
theorem get_db_user_id_schedules (db : DB) (tid : String) :
    (get_db_user_id db tid).1.schedules = db.schedules ∨
    ∃ r, (get_db_user_id db tid).1.schedules = db.schedules ++ [r] := by
  unfold get_db_user_id
  cases h1 : findUserByName db ("user_" ++ tid) with
  | some u => exact Or.inl rfl
  | none =>
      cases h2 : findUserByEmail db (tid ++ "@telegram.user") with
      | some u => exact Or.inl rfl
      | none => exact add_user_schedules db tid

/-- Resolving an id never disturbs an existing schedule row's lookup. -/
theorem lookupSchedule_get_db_user_id (db : DB) (tid : String) {uid : Nat} {s : Schedule}
    (hs : lookupSchedule db uid = some s) :
    lookupSchedule (get_db_user_id db tid).1 uid = some s := by
  rcases get_db_user_id_schedules db tid with h | ⟨r, h⟩
  · exact lookupSchedule_schedules_append [] (by rw [List.append_nil]; exact h) hs
  · exact lookupSchedule_schedules_append [r] h hs

/-- The state side of `get_undelivered_news` is exactly its id resolution. -/
theorem nm_get_undelivered_news_fst (db : DB) (tid : String) :
    (nm_get_undelivered_news db tid).1 = (get_db_user_id db tid).1 := by
  simp only [nm_get_undelivered_news]
  cases h : (get_db_user_id db tid).2 <;> simp [h]

/-- `mark_news_delivered` changes the schedule table only through its id
resolution. -/
theorem nm_mark_schedules (db : DB) (tid : String) (nid : Nat) :
    (nm_mark_news_delivered db tid nid).1.schedules
      = (get_db_user_id db tid).1.schedules := by
  simp only [nm_mark_news_delivered]
  cases h : (get_db_user_id db tid).2 <;> simp [h]

/-- Recording one receipt never disturbs an existing schedule row's lookup. -/
theorem lookupSchedule_nm_mark (db : DB) (tid : String) (nid : Nat) {uid : Nat} {s : Schedule}
    (hs : lookupSchedule db uid = some s) :
    lookupSchedule (nm_mark_news_delivered db tid nid).1 uid = some s := by
  have h1 := lookupSchedule_get_db_user_id db tid hs
  unfold lookupSchedule at h1 ⊢
  rw [nm_mark_schedules]
  exact h1

/-- Recording a whole batch never disturbs an existing schedule row's lookup. -/
theorem lookupSchedule_deliverBatch (tid : String) (batch : List NewsItem) :
    ∀ (db : DB) {uid : Nat} {s : Schedule}, lookupSchedule db uid = some s →
      lookupSchedule (deliverBatch db tid batch) uid = some s := by
  induction batch with
  | nil => intro db uid s h; exact h
  | cons b t ih =>
      intro db uid s h
      show lookupSchedule
        (deliverBatch (nm_mark_news_delivered db tid b.news_id).1 tid t) uid = some s
      exact ih _ (lookupSchedule_nm_mark db tid b.news_id h)

/-- UPDATE ... WHERE user_id = ? at another key leaves this key's row alone. -/
theorem find?_map_keyed_ne (l : List (Nat × Schedule)) (u uid : Nat) (f : Schedule → Schedule)
    (hne : u ≠ uid) :
    (l.map (fun p => if p.1 == u then (p.1, f p.2) else p)).find? (fun p => p.1 == uid)
      = l.find? (fun p => p.1 == uid) := by
  induction l with
  | nil => rfl
  | cons a t ih =>
      rw [List.map_cons]
      by_cases h : (a.1 == u) = true
      · have ha : a.1 = u := by simpa using h
        have hp : (a.1 == uid) = false := beq_eq_false_iff_ne.2 (by rw [ha]; exact hne)
        have hp1 : ¬ (((a.1, f a.2) : Nat × Schedule).1 == uid) = true := by
          simp [hp]
        have hp2 : ¬ ((a.1 == uid) = true) := by simp [hp]
        rw [if_pos h]
        rw [List.find?_cons_of_neg (p := fun (q : Nat × Schedule) => q.1 == uid) _ hp1,
            List.find?_cons_of_neg (p := fun (q : Nat × Schedule) => q.1 == uid) _ hp2, ih]
      · rw [if_neg h]
        by_cases hp : (a.1 == uid) = true
        · rw [List.find?_cons_of_pos (p := fun (q : Nat × Schedule) => q.1 == uid) _ hp,
              List.find?_cons_of_pos (p := fun (q : Nat × Schedule) => q.1 == uid) _ hp]
        · rw [List.find?_cons_of_neg (p := fun (q : Nat × Schedule) => q.1 == uid) _ hp,
              List.find?_cons_of_neg (p := fun (q : Nat × Schedule) => q.1 == uid) _ hp, ih]

/-- Effect of `updateSchedule` at a different user on a looked-up row. -/
theorem lookupSchedule_updateSchedule_ne (db : DB) (u uid : Nat) (f : Schedule → Schedule)
    (hne : u ≠ uid) :
    lookupSchedule (updateSchedule db u f) uid = lookupSchedule db uid := by
  unfold lookupSchedule updateSchedule
  rw [find?_map_keyed_ne db.schedules u uid f hne]

/-- `update_last_delivery(str(user_id))` either stamps this subscriber's row
(when the stringified id resolves back to them) or leaves it alone (when it
resolves elsewhere); nothing else can happen to the row. -/
theorem lookupSchedule_nm_update_last_delivery (db : DB) (tid : String) (now : Int)
    {uid : Nat} {s : Schedule} (hs : lookupSchedule db uid = some s) :
    lookupSchedule (nm_update_last_delivery db tid now).1 uid = some s ∨
    lookupSchedule (nm_update_last_delivery db tid now).1 uid
      = some { s with last_delivery := some now } := by
  have h1 := lookupSchedule_get_db_user_id db tid hs
  simp only [nm_update_last_delivery]
  cases h : (get_db_user_id db tid).2 with
  | none =>
      left
      exact h1
  | some u =>
      by_cases hu : u = uid
      · right
        show lookupSchedule (update_last_delivery (get_db_user_id db tid).1 u now) uid
            = some { s with last_delivery := some now }
        subst hu
        unfold update_last_delivery
        rw [lookupSchedule_updateSchedule, h1]
        rfl
      · left
        show lookupSchedule (update_last_delivery (get_db_user_id db tid).1 u now) uid = some s
        unfold update_last_delivery
        rw [lookupSchedule_updateSchedule_ne _ _ _ _ hu, h1]

/-! ## C4 — interval gating of the delivery loop -/

/-- C4: on a scheduler tick an enabled subscriber is processed exactly when
`lastDelivery` is null or `now ≥ lastDelivery + interval`; a not-yet-due
subscriber is skipped with the store untouched; with `interval = 60` a last
delivery 30 minutes ago is not due and one 61 minutes ago is due. -/
theorem C4_interval_gating (now : Int) (db : DB) (uid : Nat) (s : Schedule)
    (hs : lookupSchedule db uid = some s) (henabled : s.enabled = true) :
    (isDue now s.last_delivery s.interval_minutes = true ↔
      (s.last_delivery = none ∨
        ∃ u, s.last_delivery = some u ∧ u + s.interval_minutes ≤ now)) ∧
    (isDue now s.last_delivery s.interval_minutes = false → tickUser now db uid = db) ∧
    isDue now (some (now - 30)) 60 = false ∧
    isDue now (some (now - 61)) 60 = true := by
  refine ⟨?_, ?_, ?_, ?_⟩
  · cases h : s.last_delivery with
    | none => simp [isDue]
    | some u => simp [isDue]
  · intro hdue
    simp [tickUser, hs, henabled, hdue]
  · simp [isDue]; omega
  · simp [isDue]; omega

/-- Concrete store used by the witnesses: one user (Telegram id "7", database
id 1), one feed, three items with publish times 3 > 2 > 1 stored unsorted,
one subscription, an enabled 60-minute schedule whose last delivery was at
time 30, and a preference row with the default limit 5. -/
def wDB : DB :=
  { users := [⟨1, "user_7", "7@telegram.user"⟩],
    feeds := [⟨1, "http://a.example/feed", "A", none⟩],
    items := [⟨2, 1, "t2", "l2", "d2", 2⟩, ⟨1, 1, "t1", "l1", "d1", 3⟩, ⟨3, 1, "t3", "l3", "d3", 1⟩],
    user_feeds := [(1, 1)],
    deliveries := [],
    schedules := [(1, ⟨true, 60, some 30⟩)],
    prefs := [(1, 5)],
    next_user_id := 2,
    next_feed_id := 2,
    next_news_id := 4 }

/-- Witness for C4: in the concrete store the subscriber's last delivery was
30 minutes before tick time 50 with a 60-minute interval, so the tick leaves
the store untouched. -/
theorem C4_interval_gating_witness : tickUser 50 wDB 1 = wDB :=
  (C4_interval_gating 50 wDB 1 ⟨true, 60, some 30⟩ (by decide) rfl).2.1 (by decide)

/-! ## C10 — enabling overwrites the delivery clock, disabling only the flag -/

/-- C10: `enable_auto_delivery` sets the enabled flag and overwrites
`last_delivery` with the current time (so the subscriber is not due again
before a full interval has passed), while `disable_auto_delivery` clears
only the enabled flag, leaving interval, last delivery and every other
table unchanged. -/
theorem C10_enable_sets_clock_disable_only_flag (db : DB) (tid : String) (uid : Nat)
    (now : Int) (s : Schedule)
    (hres : get_db_user_id db tid = (db, some uid))
    (hs : lookupSchedule db uid = some s) :
    lookupSchedule (nm_enable_auto_delivery db tid now).1 uid
      = some ⟨true, s.interval_minutes, some now⟩ ∧
    (nm_enable_auto_delivery db tid now).2 = true ∧
    (∀ t : Int, t < now + s.interval_minutes → isDue t (some now) s.interval_minutes = false) ∧
    lookupSchedule (nm_disable_auto_delivery db tid).1 uid
      = some ⟨false, s.interval_minutes, s.last_delivery⟩ ∧
    (nm_disable_auto_delivery db tid).1.users = db.users ∧
    (nm_disable_auto_delivery db tid).1.items = db.items ∧
    (nm_disable_auto_delivery db tid).1.deliveries = db.deliveries ∧
    (nm_disable_auto_delivery db tid).1.user_feeds = db.user_feeds := by
  have hrow := scheduleRowExists_of_lookup hs
  have henable : (nm_enable_auto_delivery db tid now).1
      = updateSchedule db uid (fun q => { q with enabled := true, last_delivery := some now }) := by
    simp [nm_enable_auto_delivery, hres, hrow]
  have hdisable : (nm_disable_auto_delivery db tid).1
      = updateSchedule db uid (fun q => { q with enabled := false }) := by
    simp [nm_disable_auto_delivery, hres]
  refine ⟨?_, ?_, ?_, ?_, ?_, ?_, ?_, ?_⟩
  · rw [henable, lookupSchedule_updateSchedule, hs]; rfl
  · simp [nm_enable_auto_delivery, hres]
  · intro t ht; simp only [isDue, decide_eq_false_iff_not]; omega
  · rw [hdisable, lookupSchedule_updateSchedule, hs]; rfl
  · rw [hdisable]; rfl
  · rw [hdisable]; rfl
  · rw [hdisable]; rfl
  · rw [hdisable]; rfl

/-- Witness for C10: enabling in the concrete store stamps the schedule row
with the call time 100 and keeps the 60-minute interval. -/
theorem C10_enable_disable_witness :
    lookupSchedule (nm_enable_auto_delivery wDB "7" 100).1 1 = some ⟨true, 60, some 100⟩ :=
  (C10_enable_sets_clock_disable_only_flag wDB "7" 1 100 ⟨true, 60, some 30⟩
    (by decide) (by decide)).1

/-! ## C7 — interval validation -/

/-- C7: both set-interval entry points reject a request below the 5-minute
floor with a failure result and an unchanged store (the NewsManager variant
accepts only the presets 30/60/180/1440, all of which are at least 5; the
bot command accepts any value of at least 5); values the implementation
accepts are persisted into the schedule row. -/
theorem C7_interval_validation (db : DB) (tid : String) (uid : Nat) (v : Int) (s : Schedule)
    (hres : get_db_user_id db tid = (db, some uid))
    (hs : lookupSchedule db uid = some s) :
    (v < 5 → nm_set_schedule db tid v = (db, false)) ∧
    (v < 5 → bot_set_schedule db uid v = (db, false)) ∧
    ((v = 30 ∨ v = 60 ∨ v = 180 ∨ v = 1440) →
      (nm_set_schedule db tid v).2 = true ∧
      lookupSchedule (nm_set_schedule db tid v).1 uid
        = some { s with interval_minutes := v }) ∧
    (5 ≤ v →
      (bot_set_schedule db uid v).2 = true ∧
      lookupSchedule (bot_set_schedule db uid v).1 uid
        = some { s with interval_minutes := v }) := by
  have hrow := scheduleRowExists_of_lookup hs
  refine ⟨?_, ?_, ?_, ?_⟩
  · intro hv
    have hc : (v == 30 || v == 60 || v == 180 || v == 1440) = false := by
      simp only [Bool.or_eq_false_iff, beq_eq_false_iff_ne, ne_eq]
      omega
    simp [nm_set_schedule, hres, hc]
  · intro hv
    simp [bot_set_schedule, hv]
  · intro hv
    have hc : (v == 30 || v == 60 || v == 180 || v == 1440) = true := by
      rcases hv with h | h | h | h <;> simp [h]
    constructor
    · simp [nm_set_schedule, hres, hc]
    · have h1 : (nm_set_schedule db tid v).1
          = updateSchedule db uid (fun q => { q with interval_minutes := v }) := by
        simp [nm_set_schedule, hres, hc, hrow]
      rw [h1, lookupSchedule_updateSchedule, hs]; rfl
  · intro hv
    have hlt : ¬ v < 5 := by omega
    constructor
    · simp [bot_set_schedule, hlt]
    · have h1 : (bot_set_schedule db uid v).1
          = updateSchedule db uid (fun q => { q with interval_minutes := v }) := by
        simp [bot_set_schedule, hlt, hrow]
      rw [h1, lookupSchedule_updateSchedule, hs]; rfl

/-- Witness for C7: in the concrete store the request for a 3-minute interval
is rejected by both entry points with the store unchanged. -/
theorem C7_interval_validation_witness :
    nm_set_schedule wDB "7" 3 = (wDB, false) ∧ bot_set_schedule wDB 1 3 = (wDB, false) := by
  have h := C7_interval_validation wDB "7" 1 3 ⟨true, 60, some 30⟩ (by decide) (by decide)
  exact ⟨h.1 (by omega), h.2.1 (by omega)⟩

/-! ## C3 — the undelivered-news query -/

/-- C3: every row the query returns is a stored item of a feed the subscriber
follows with no receipt for that subscriber; the rows come in descending
publish-time order and no more than `limit` of them; when no more than
`limit` items are eligible, every eligible item is returned; the limit
defaults to 5 when the subscriber has no preference row; and on the
concrete store with publish times 3 > 2 > 1 and limit 2 the query returns
exactly the two newest items. -/
theorem C3_eligibility_query (db : DB) (uid : Nat) (limit : Nat) :
    (∀ it ∈ get_undelivered_news_q db uid limit,
        it ∈ db.items ∧ subscribedFeed db uid it = true ∧ undelivered db uid it = true) ∧
    List.Sorted itemLE (get_undelivered_news_q db uid limit) ∧
    (get_undelivered_news_q db uid limit).length ≤ limit ∧
    ((db.items.filter (fun it => eligibleItem db uid it)).length ≤ limit →
      ∀ it ∈ db.items, eligibleItem db uid it = true →
        it ∈ get_undelivered_news_q db uid limit) ∧
    (db.prefs.find? (fun p => p.1 == uid) = none → maxNewsItems db uid = 5) ∧
    get_undelivered_news_q wDB 1 2
      = [⟨1, 1, "t1", "l1", "d1", 3⟩, ⟨2, 1, "t2", "l2", "d2", 2⟩] := by
  refine ⟨?_, ?_, ?_, ?_, ?_, ?_⟩
  · intro it hit
    have h1 : it ∈ List.insertionSort itemLE (db.items.filter (fun x => eligibleItem db uid x)) :=
      List.mem_of_mem_take hit
    have h2 : it ∈ db.items.filter (fun x => eligibleItem db uid x) :=
      (List.mem_insertionSort itemLE).1 h1
    have h3 := List.mem_filter.1 h2
    have h4 : (subscribedFeed db uid it && undelivered db uid it) = true := h3.2
    rw [Bool.and_eq_true] at h4
    exact ⟨h3.1, h4.1, h4.2⟩
  · exact (List.sorted_insertionSort itemLE _).sublist (List.take_sublist _ _)
  · exact List.length_take_le _ _
  · intro hlen it hmem helig
    have hfil : it ∈ db.items.filter (fun x => eligibleItem db uid x) :=
      List.mem_filter.2 ⟨hmem, helig⟩
    have hsm : it ∈ List.insertionSort itemLE (db.items.filter (fun x => eligibleItem db uid x)) :=
      (List.mem_insertionSort itemLE).2 hfil
    have hlen2 :
        (List.insertionSort itemLE (db.items.filter (fun x => eligibleItem db uid x))).length
          ≤ limit := by
      rw [List.length_insertionSort]; exact hlen
    unfold get_undelivered_news_q
    rw [List.take_of_length_le hlen2]
    exact hsm
  · intro h; simp [maxNewsItems, h]
  · decide

/-- Witness for C3: in the concrete store the newest item is returned for the
subscriber when all three eligible items fit under the limit. -/
theorem C3_eligibility_query_witness :
    (⟨1, 1, "t1", "l1", "d1", 3⟩ : NewsItem) ∈ get_undelivered_news_q wDB 1 5 :=
  (C3_eligibility_query wDB 1 5).2.2.2.1 (by decide) _ (by decide) (by decide)

/-! ## C1 — delivery receipts are at-most-once -/

/-- Membership form of the receipt-probe SQL predicate. -/
theorem pair_any_iff (ds : List (Nat × Nat)) (uid nid : Nat) :
    ds.any (fun p => p.1 == uid && p.2 == nid) = true ↔ (uid, nid) ∈ ds := by
  rw [List.any_eq_true]
  constructor
  · rintro ⟨⟨a, b⟩, hm, hp⟩
    rw [Bool.and_eq_true] at hp
    have h := hp
    have ha : a = uid := by simpa using h.1
    have hb : b = nid := by simpa using h.2
    rw [← ha, ← hb]; exact hm
  · intro hm
    exact ⟨(uid, nid), hm, by simp⟩

/-- INSERT OR IGNORE preserves distinctness of the receipt rows. -/
theorem insert_or_ignore_delivery_nodup {ds : List (Nat × Nat)} (h : ds.Nodup)
    (uid nid : Nat) : (insert_or_ignore_delivery ds uid nid).Nodup := by
  unfold insert_or_ignore_delivery
  by_cases hc : ds.any (fun p => p.1 == uid && p.2 == nid) = true
  · rw [if_pos hc]; exact h
  · rw [if_neg hc]
    have hnm : (uid, nid) ∉ ds := fun hm => hc ((pair_any_iff ds uid nid).2 hm)
    simp only [List.nodup_append, List.nodup_cons, List.not_mem_nil, not_false_iff,
      List.nodup_nil, and_true, true_and]
    exact ⟨h, fun a ha hb => by
      cases hb with
      | head => exact hnm ha
      | tail _ hx => cases hx⟩

/-- C1 (amended): the NewsManager delivery recorder is an idempotent silent
no-op on a duplicate (subscriber, item) pair and any sequence of such
recordings keeps at most one receipt per pair; the undelivered query never
returns a receipted item; the Database-class recorder, by contrast, raises
an integrity error on a duplicate pair (inserting nothing) instead of
failing silently. -/
theorem C1_delivery_at_most_once_amended (db : DB) (tid : String) (uid nid : Nat)
    (ds : List (Nat × Nat)) (ops : List (Nat × Nat)) (lim : Nat) :
    (ds.Nodup → (ops.foldl (fun d q => insert_or_ignore_delivery d q.1 q.2) ds).Nodup) ∧
    ((uid, nid) ∈ ds → insert_or_ignore_delivery ds uid nid = ds) ∧
    (get_db_user_id db tid = (db, some uid) → (uid, nid) ∈ db.deliveries →
      nm_mark_news_delivered db tid nid = (db, true)) ∧
    (∀ it ∈ get_undelivered_news_q db uid lim,
      db.deliveries.any (fun p => p.1 == uid && p.2 == it.news_id) = false) ∧
    ((uid, nid) ∈ ds →
      db_mark_news_delivered ds uid nid
        = Except.error
            "UNIQUE constraint failed: news_delivery.user_id, news_delivery.news_id") ∧
    ((uid, nid) ∉ ds → db_mark_news_delivered ds uid nid = Except.ok (ds ++ [(uid, nid)])) := by
  have hfold : ∀ (ops : List (Nat × Nat)) (ds : List (Nat × Nat)), ds.Nodup →
      (ops.foldl (fun d q => insert_or_ignore_delivery d q.1 q.2) ds).Nodup := by
    intro ops
    induction ops with
    | nil => intro ds h; exact h
    | cons o t ih =>
        intro ds h
        exact ih _ (insert_or_ignore_delivery_nodup h o.1 o.2)
  refine ⟨hfold ops ds, ?_, ?_, ?_, ?_, ?_⟩
  · intro hm
    unfold insert_or_ignore_delivery
    rw [if_pos ((pair_any_iff ds uid nid).2 hm)]
  · intro hres hm
    have hno : insert_or_ignore_delivery db.deliveries uid nid = db.deliveries := by
      unfold insert_or_ignore_delivery
      rw [if_pos ((pair_any_iff db.deliveries uid nid).2 hm)]
    simp [nm_mark_news_delivered, hres, hno]
  · intro it hit
    have h1 : it ∈ List.insertionSort itemLE (db.items.filter (fun x => eligibleItem db uid x)) :=
      List.mem_of_mem_take hit
    have h2 := List.mem_filter.1 ((List.mem_insertionSort itemLE).1 h1)
    have h4 : (subscribedFeed db uid it && undelivered db uid it) = true := h2.2
    rw [Bool.and_eq_true] at h4
    have h5 : undelivered db uid it = true := h4.2
    unfold undelivered at h5
    simpa using h5
  · intro hm
    unfold db_mark_news_delivered
    rw [if_pos ((pair_any_iff ds uid nid).2 hm)]
  · intro hm
    unfold db_mark_news_delivered
    rw [if_neg (fun hc => hm ((pair_any_iff ds uid nid).1 hc))]

/-- Counterexample for C1 as stated: with the receipt (1, 2) already stored,
a second call of Database.mark_news_delivered for the same pair is not a
silent no-op — the INSERT hits the unique constraint and the call raises. -/
theorem C1_counterexample :
    db_mark_news_delivered [(1, 2)] 1 2
      = Except.error
          "UNIQUE constraint failed: news_delivery.user_id, news_delivery.news_id" := rfl

/-- Witness for C1: recording the already-stored receipt (1, 2) again through
the INSERT OR IGNORE path leaves the receipt table unchanged. -/
theorem C1_delivery_at_most_once_witness :
    insert_or_ignore_delivery [(1, 2)] 1 2 = [(1, 2)] :=
  (C1_delivery_at_most_once_amended emptyDB "7" 1 2 [(1, 2)] [] 5).2.1 (by decide)

/-! ## C9 — lookups for unknown subscribers -/

/-- Counterexample for C9 as stated: querying undelivered news for the
unknown Telegram id "42" on an empty store does return the typed empty
result, but the lookup's id-resolution step registers a brand-new user row
as a side effect, so "the lookup itself does not create new entities" is
false. -/
theorem C9_counterexample :
    (nm_get_undelivered_news emptyDB "42").2 = [] ∧
    (nm_get_undelivered_news emptyDB "42").1.users
      = [⟨1, "user_42", "42@telegram.user"⟩] ∧
    emptyDB.users = [] :=
  ⟨rfl, rfl, rfl⟩

/-- C9 (amended): for a subscriber id unknown to both the username and the
email lookup, `get_undelivered_news` surfaces the typed empty result (no
crash: the operation is total), but `_get_db_user_id` auto-registers the
subscriber — the store gains exactly one new user row carrying the
placeholder username and email. -/
theorem C9_lookup_amended (db : DB) (tid : String)
    (hname : findUserByName db ("user_" ++ tid) = none)
    (hemail : findUserByEmail db (tid ++ "@telegram.user") = none)
    (hfeeds : ∀ p ∈ db.user_feeds, p.1 ≠ db.next_user_id) :
    (nm_get_undelivered_news db tid).2 = [] ∧
    (nm_get_undelivered_news db tid).1.users
      = db.users ++ [⟨db.next_user_id, "user_" ++ tid, tid ++ "@telegram.user"⟩] := by
  have hadd1 : (add_user db tid).1.users
      = db.users ++ [⟨db.next_user_id, "user_" ++ tid, tid ++ "@telegram.user"⟩] := by
    simp only [add_user, hname]
    split_ifs <;> rfl
  have hadd2 : (add_user db tid).1.user_feeds = db.user_feeds := by
    simp only [add_user, hname]
    split_ifs <;> rfl
  have hadd3 : (add_user db tid).2 = db.next_user_id := by
    simp only [add_user, hname]
  have hres : get_db_user_id db tid = ((add_user db tid).1, some (add_user db tid).2) := by
    simp only [get_db_user_id, hname, hemail]
  have hsub : ∀ it : NewsItem,
      subscribedFeed (add_user db tid).1 (add_user db tid).2 it = false := by
    intro it
    unfold subscribedFeed
    have h2 : (add_user db tid).1.user_feeds.any
        (fun p => p.1 == (add_user db tid).2 && p.2 == it.feed_id) = false := by
      rw [List.any_eq_false]
      intro p hp
      rw [hadd2] at hp
      simp only [Bool.and_eq_true, beq_iff_eq, not_and]
      intro h1
      rw [hadd3] at h1
      exact absurd h1 (hfeeds p hp)
    rw [h2, Bool.and_false]
  have hfil : (add_user db tid).1.items.filter
      (fun it => eligibleItem (add_user db tid).1 (add_user db tid).2 it) = [] := by
    rw [List.filter_eq_nil_iff]
    intro it _
    unfold eligibleItem
    rw [hsub it, Bool.false_and]
    exact Bool.false_ne_true
  constructor
  · show (nm_get_undelivered_news db tid).2 = []
    unfold nm_get_undelivered_news
    rw [hres]
    show get_undelivered_news_q (add_user db tid).1 (add_user db tid).2 _ = []
    unfold get_undelivered_news_q
    rw [hfil]
    simp [List.insertionSort]
  · unfold nm_get_undelivered_news
    rw [hres]
    exact hadd1

/-- Witness for C9 (amended) at the empty store and the unknown id "42". -/
theorem C9_lookup_amended_witness :
    (nm_get_undelivered_news emptyDB "42").2 = [] ∧
    (nm_get_undelivered_news emptyDB "42").1.users
      = emptyDB.users ++ [⟨emptyDB.next_user_id, "user_" ++ "42", "42" ++ "@telegram.user"⟩] :=
  C9_lookup_amended emptyDB "42" rfl rfl (by intro p hp; cases hp)

/-! ## Ingestion helper lemmas -/

/-- Permalinks currently stored, in insertion order. -/
def itemLinks (db : DB) : List String := db.items.map NewsItem.link

/-- The dedup probe answers membership in the stored permalinks. -/
theorem linkExists_iff (db : DB) (l : String) :
    linkExists db l = true ↔ l ∈ itemLinks db := by
  unfold linkExists itemLinks
  rw [List.any_eq_true]
  constructor
  · rintro ⟨it, hm, he⟩
    have : it.link = l := by simpa using he
    rw [← this]
    exact List.mem_map_of_mem NewsItem.link hm
  · intro hm
    rcases List.mem_map.1 hm with ⟨it, hit, he⟩
    exact ⟨it, hit, by simp [he]⟩

/-- Item count bookkeeping of the per-entry loop: the counter advances by
exactly the number of rows inserted. -/
theorem foldl_insert_accounting (fid : Nat) (entries : List Entry) :
    ∀ p : DB × Nat,
      (entries.foldl (insertEntryIfNew fid) p).1.items.length + p.2
        = (entries.foldl (insertEntryIfNew fid) p).2 + p.1.items.length := by
  induction entries with
  | nil => intro p; simp only [List.foldl_nil]; omega
  | cons e t ih =>
      intro p
      rw [List.foldl_cons]
      have hstep : (insertEntryIfNew fid p e).1.items.length + p.2
          = (insertEntryIfNew fid p e).2 + p.1.items.length := by
        unfold insertEntryIfNew
        by_cases h : linkExists p.1 e.link = true
        · rw [if_pos h]; omega
        · rw [if_neg h]
          simp only [List.length_append, List.length_cons, List.length_nil]
          omega
      have h2 := ih (insertEntryIfNew fid p e)
      omega

/-- The per-entry loop never touches the feed table. -/
theorem foldl_insert_feeds (fid : Nat) (entries : List Entry) :
    ∀ p : DB × Nat, (entries.foldl (insertEntryIfNew fid) p).1.feeds = p.1.feeds := by
  induction entries with
  | nil => intro p; rfl
  | cons e t ih =>
      intro p
      rw [List.foldl_cons]
      unfold insertEntryIfNew
      by_cases h : linkExists p.1 e.link = true
      · rw [if_pos h]; exact ih p
      · rw [if_neg h]; exact ih _

/-- The per-entry loop preserves distinctness of stored permalinks: a row is
inserted only after the probe reports its link unknown. -/
theorem foldl_insert_links_nodup (fid : Nat) (entries : List Entry) :
    ∀ p : DB × Nat, (itemLinks p.1).Nodup →
      (itemLinks (entries.foldl (insertEntryIfNew fid) p).1).Nodup := by
  induction entries with
  | nil => intro p h; exact h
  | cons e t ih =>
      intro p h
      rw [List.foldl_cons]
      unfold insertEntryIfNew
      by_cases hl : linkExists p.1 e.link = true
      · rw [if_pos hl]; exact ih p h
      · rw [if_neg hl]
        apply ih
        have hlinks : itemLinks { p.1 with
            items := p.1.items
              ++ [⟨p.1.next_news_id, fid, e.title, e.link, e.description, e.pub_date⟩],
            next_news_id := p.1.next_news_id + 1 }
            = itemLinks p.1 ++ [e.link] := by
          simp [itemLinks]
        have hnm : e.link ∉ itemLinks p.1 := fun hm => hl ((linkExists_iff p.1 e.link).2 hm)
        rw [hlinks]
        simp only [List.nodup_append, List.nodup_cons, List.not_mem_nil, not_false_iff,
          List.nodup_nil, and_true, true_and]
        exact ⟨h, fun a ha hb => by
          cases hb with
          | head => exact hnm ha
          | tail _ hx => cases hx⟩

/-- Entries whose permalinks are all known are all skipped. -/
theorem foldl_insert_all_exist (fid : Nat) :
    ∀ (entries : List Entry) (p : DB × Nat),
      (∀ x ∈ entries, linkExists p.1 x.link = true) →
      entries.foldl (insertEntryIfNew fid) p = p := by
  intro entries
  induction entries with
  | nil => intro p _; rfl
  | cons e t ih =>
      intro p h
      rw [List.foldl_cons]
      have hstep : insertEntryIfNew fid p e = p := by
        unfold insertEntryIfNew; rw [if_pos (h e (List.mem_cons_self e t))]
      rw [hstep]
      exact ih p (fun x hx => h x (List.mem_cons_of_mem e hx))

/-- Stamping `last_updated` keeps the feed id column. -/
theorem feeds_map_id_update (db : DB) (fid : Nat) (now : Int) :
    (update_feed_last_updated db fid now).feeds.map Feed.feed_id
      = db.feeds.map Feed.feed_id := by
  unfold update_feed_last_updated
  rw [List.map_map]
  apply List.map_congr_left
  intro f _
  by_cases h : (f.feed_id == fid) = true <;> simp [Function.comp, h]

/-- Polling one feed changes the item count by exactly its returned count. -/
theorem fetch_feed_items_accounting (fetch : String → Except Unit (List Entry))
    (now : Int) (db : DB) (fid : Nat) (url : String) :
    (fetch_feed_items fetch now db fid url).1.items.length
      = db.items.length + (fetch_feed_items fetch now db fid url).2 := by
  unfold fetch_feed_items
  cases h : fetch url with
  | error e => simp
  | ok entries =>
      have h2 : (entries.foldl (insertEntryIfNew fid) (db, 0)).1.items.length + 0
          = (entries.foldl (insertEntryIfNew fid) (db, 0)).2 + db.items.length :=
        foldl_insert_accounting fid entries (db, 0)
      simp only
      have hupd : ∀ d : DB, (update_feed_last_updated d fid now).items = d.items := fun d => rfl
      rw [hupd]
      omega

/-- Polling one feed preserves distinctness of stored permalinks. -/
theorem fetch_feed_items_links_nodup (fetch : String → Except Unit (List Entry))
    (now : Int) (db : DB) (fid : Nat) (url : String)
    (h : (itemLinks db).Nodup) :
    (itemLinks (fetch_feed_items fetch now db fid url).1).Nodup := by
  unfold fetch_feed_items
  cases hf : fetch url with
  | error e => exact h
  | ok entries =>
      have h2 := foldl_insert_links_nodup fid entries (db, 0) h
      simpa [itemLinks] using h2

/-- Polling one feed keeps the feed id column of the feed table. -/
theorem fetch_feed_items_feeds_ids (fetch : String → Except Unit (List Entry))
    (now : Int) (db : DB) (fid : Nat) (url : String) :
    (fetch_feed_items fetch now db fid url).1.feeds.map Feed.feed_id
      = db.feeds.map Feed.feed_id := by
  unfold fetch_feed_items
  cases hf : fetch url with
  | error e => rfl
  | ok entries =>
      simp only
      rw [feeds_map_id_update, foldl_insert_feeds]

/-- A failed fetch leaves the store untouched and reports zero new items. -/
theorem fetch_feed_items_of_error (fetch : String → Except Unit (List Entry))
    (now : Int) (db : DB) (fid : Nat) (url : String)
    (herr : fetch url = Except.error ()) :
    fetch_feed_items fetch now db fid url = (db, 0) := by
  unfold fetch_feed_items
  rw [herr]

/-! ## C2 — permalink dedup on ingestion -/

/-- Feed fetcher of the concrete dedup scenario: every fetch yields one entry
with permalink "dup". -/
def fetchDup : String → Except Unit (List Entry) := fun _ => Except.ok [⟨"x", "dup", "d", 1⟩]

/-- C2: ingesting an entry whose permalink is already stored inserts nothing
and alters nothing (a no-op result, not an error); a run over entries whose
links are all known returns count 0 with the item table unchanged; a run
never introduces duplicate permalinks; and ingesting the same permalink
twice concretely leaves exactly one stored item, the second run counting
zero. -/
theorem C2_dedup_idempotent (db : DB) (fid : Nat) (e : Entry) (c : Nat)
    (fetch : String → Except Unit (List Entry)) (now : Int) (url : String)
    (entries : List Entry) :
    (linkExists db e.link = true → insertEntryIfNew fid (db, c) e = (db, c)) ∧
    (fetch url = Except.ok entries → (∀ x ∈ entries, linkExists db x.link = true) →
      (fetch_feed_items fetch now db fid url).1.items = db.items ∧
      (fetch_feed_items fetch now db fid url).2 = 0) ∧
    ((itemLinks db).Nodup → (itemLinks (fetch_feed_items fetch now db fid url).1).Nodup) ∧
    itemLinks (fetch_feed_items fetchDup 11
        (fetch_feed_items fetchDup 10 emptyDB 1 "u").1 1 "u").1 = ["dup"] ∧
    (fetch_feed_items fetchDup 11 (fetch_feed_items fetchDup 10 emptyDB 1 "u").1 1 "u").2 = 0 := by
  refine ⟨?_, ?_, fetch_feed_items_links_nodup fetch now db fid url, by decide, by decide⟩
  · intro h
    unfold insertEntryIfNew
    rw [if_pos h]
  · intro hok hall
    unfold fetch_feed_items
    rw [hok]
    simp only
    rw [foldl_insert_all_exist fid entries (db, 0) hall]
    exact ⟨rfl, rfl⟩

/-- Witness for C2: re-ingesting the stored permalink "l1" of the concrete
store is a no-op. -/
theorem C2_dedup_idempotent_witness :
    insertEntryIfNew 1 (wDB, 0) ⟨"t", "l1", "d", 9⟩ = (wDB, 0) :=
  (C2_dedup_idempotent wDB 1 ⟨"t", "l1", "d", 9⟩ 0 fetchDup 0 "u" []).1 (by decide)

/-! ## C6 — polling: partial-failure isolation and the returned count -/

/-- Fetcher of the concrete partial-failure scenario: source A is unreachable,
source B yields three fresh entries. -/
def fetchAB : String → Except Unit (List Entry) := fun u =>
  if u == "http://a.example/rss" then Except.error ()
  else Except.ok [⟨"x", "lx", "dx", 1⟩, ⟨"y", "ly", "dy", 2⟩, ⟨"z", "lz", "dz", 3⟩]

/-- Store of the concrete partial-failure scenario: feed A (id 1, last polled
at time 5) and feed B (id 2, never polled). -/
def dbAB : DB :=
  { emptyDB with
    feeds := [⟨1, "http://a.example/rss", "A", some 5⟩, ⟨2, "http://b.example/rss", "B", none⟩],
    next_feed_id := 3 }

/-- C6: a poll run's returned count is exactly the number of item rows it
inserted (each with a previously unknown permalink — distinctness of stored
permalinks is preserved); a feed whose fetch fails is left with its row,
last-polled timestamp included, unchanged while the remaining feeds are
still polled; concretely, with source A failing and source B yielding 3 new
items the run returns 3 and A keeps its old timestamp. -/
theorem C6_partial_failure_isolation (fetch : String → Except Unit (List Entry))
    (now : Int) (db : DB) (f : Feed)
    (hnodup : (db.feeds.map Feed.feed_id).Nodup) (hf : f ∈ db.feeds)
    (herr : fetch f.feed_url = Except.error ()) :
    (check_feeds fetch now db).1.items.length
      = db.items.length + (check_feeds fetch now db).2 ∧
    ((itemLinks db).Nodup → (itemLinks (check_feeds fetch now db).1).Nodup) ∧
    f ∈ (check_feeds fetch now db).1.feeds ∧
    (check_feeds fetch now db).1.feeds.map Feed.feed_id = db.feeds.map Feed.feed_id ∧
    (check_feeds fetchAB 50 dbAB).2 = 3 ∧
    (check_feeds fetchAB 50 dbAB).1.feeds
      = [⟨1, "http://a.example/rss", "A", some 5⟩,
         ⟨2, "http://b.example/rss", "B", some 50⟩] := by
  have foldacc : ∀ (fs : List Feed) (p : DB × Nat),
      (fs.foldl (checkFeedsStep fetch now) p).1.items.length + p.2
        = (fs.foldl (checkFeedsStep fetch now) p).2 + p.1.items.length := by
    intro fs
    induction fs with
    | nil => intro p; simp only [List.foldl_nil]; omega
    | cons g t ih =>
        intro p
        rw [List.foldl_cons]
        have h2 := ih (checkFeedsStep fetch now p g)
        have h3 := fetch_feed_items_accounting fetch now p.1 g.feed_id g.feed_url
        have hstep1 : (checkFeedsStep fetch now p g).1.items.length
            = (fetch_feed_items fetch now p.1 g.feed_id g.feed_url).1.items.length := rfl
        have hstep2 : (checkFeedsStep fetch now p g).2
            = p.2 + (fetch_feed_items fetch now p.1 g.feed_id g.feed_url).2 := rfl
        omega
  have foldnodup : ∀ (fs : List Feed) (p : DB × Nat),
      (itemLinks p.1).Nodup →
        (itemLinks (fs.foldl (checkFeedsStep fetch now) p).1).Nodup := by
    intro fs
    induction fs with
    | nil => intro p h; exact h
    | cons g t ih =>
        intro p h
        rw [List.foldl_cons]
        exact ih _ (fetch_feed_items_links_nodup fetch now p.1 g.feed_id g.feed_url h)
  have foldids : ∀ (fs : List Feed) (p : DB × Nat),
      (fs.foldl (checkFeedsStep fetch now) p).1.feeds.map Feed.feed_id
        = p.1.feeds.map Feed.feed_id := by
    intro fs
    induction fs with
    | nil => intro p; rfl
    | cons g t ih =>
        intro p
        rw [List.foldl_cons, ih]
        exact fetch_feed_items_feeds_ids fetch now p.1 g.feed_id g.feed_url
  have hside : ∀ g ∈ db.feeds, fetch g.feed_url = Except.error () ∨ g.feed_id ≠ f.feed_id := by
    intro g hg
    by_cases hc : g.feed_id = f.feed_id
    · left
      have hgf : g = f := List.inj_on_of_nodup_map hnodup hg hf hc
      rw [hgf]
      exact herr
    · right; exact hc
  have step_pres : ∀ (g : Feed) (p : DB × Nat),
      f ∈ p.1.feeds →
      (fetch g.feed_url = Except.error () ∨ g.feed_id ≠ f.feed_id) →
      f ∈ (checkFeedsStep fetch now p g).1.feeds := by
    intro g p hmem hor
    unfold checkFeedsStep
    simp only
    unfold fetch_feed_items
    cases hfg : fetch g.feed_url with
    | error e => exact hmem
    | ok entries =>
        simp only
        have hnid : f.feed_id ≠ g.feed_id := by
          rcases hor with h | h
          · rw [hfg] at h; cases h
          · exact fun hx => h hx.symm
        unfold update_feed_last_updated
        rw [foldl_insert_feeds]
        have := List.mem_map_of_mem
          (fun x : Feed => if x.feed_id == g.feed_id then { x with last_updated := some now } else x)
          hmem
        simpa [beq_eq_false_iff_ne.2 hnid] using this
  have foldmem : ∀ (fs : List Feed) (p : DB × Nat),
      (∀ g ∈ fs, fetch g.feed_url = Except.error () ∨ g.feed_id ≠ f.feed_id) →
      f ∈ p.1.feeds →
      f ∈ (fs.foldl (checkFeedsStep fetch now) p).1.feeds := by
    intro fs
    induction fs with
    | nil => intro p _ h; exact h
    | cons g t ih =>
        intro p hall hmem
        rw [List.foldl_cons]
        exact ih _ (fun x hx => hall x (List.mem_cons_of_mem g hx))
          (step_pres g p hmem (hall g (List.mem_cons_self g t)))
  refine ⟨?_, ?_, ?_, ?_, by decide, by decide⟩
  · have h : (db.feeds.foldl (checkFeedsStep fetch now) (db, 0)).1.items.length + 0
        = (db.feeds.foldl (checkFeedsStep fetch now) (db, 0)).2 + db.items.length :=
      foldacc db.feeds (db, 0)
    unfold check_feeds
    omega
  · intro h
    exact foldnodup db.feeds (db, 0) h
  · exact foldmem db.feeds (db, 0) hside hf
  · exact foldids db.feeds (db, 0)

/-- Witness for C6 at the concrete scenario: source A's fetch fails, so its
row — timestamp included — survives the whole poll run. -/
theorem C6_partial_failure_isolation_witness :
    (⟨1, "http://a.example/rss", "A", some 5⟩ : Feed) ∈ (check_feeds fetchAB 50 dbAB).1.feeds :=
  (C6_partial_failure_isolation fetchAB 50 dbAB ⟨1, "http://a.example/rss", "A", some 5⟩
    (by decide) (by decide) rfl).2.2.1

/-! ## C8 — idempotent source registration -/

/-- Registering an address that is already stored returns the stored id and
changes nothing (the duplicate check fires before any write). -/
theorem add_feed_existing (fetch : String → Except Unit (List Entry)) (now : Int)
    (db : DB) (url name : String) (entries : List Entry)
    (hok : fetch url = Except.ok entries) (hne : entries.isEmpty = false)
    (fid : Nat) (hfound : findFeedByUrl db url = some fid) :
    add_feed fetch now db url name = (db, fid) := by
  simp [add_feed, hok, hne, hfound]

/-- C8: feed registration is idempotent in the feed address — when the address
is known the stored id is returned with no mutation at all, and registering
a fresh address (whose fetch parses to a non-empty feed) leaves exactly one
row for that address, found by later lookups under the id just returned, so
an immediate second registration returns the same id and leaves the store
unchanged. -/
theorem C8_register_source_idempotent (fetch : String → Except Unit (List Entry))
    (now now2 : Int) (db : DB) (url name name2 : String) (entries : List Entry)
    (hok : fetch url = Except.ok entries) (hne : entries ≠ []) :
    (∀ fid, findFeedByUrl db url = some fid → add_feed fetch now db url name = (db, fid)) ∧
    (findFeedByUrl db url = none →
      findFeedByUrl (add_feed fetch now db url name).1 url
          = some (add_feed fetch now db url name).2 ∧
      ((add_feed fetch now db url name).1.feeds.filter
          (fun g => g.feed_url == url)).length = 1 ∧
      add_feed fetch now2 (add_feed fetch now db url name).1 url name2
          = ((add_feed fetch now db url name).1, (add_feed fetch now db url name).2)) := by
  have hemp : entries.isEmpty = false := by
    cases entries with
    | nil => exact absurd rfl hne
    | cons a t => rfl
  refine ⟨fun fid h => add_feed_existing fetch now db url name entries hok hemp fid h, ?_⟩
  intro hnone
  have hfind0 : db.feeds.find? (fun g => g.feed_url == url) = none := by
    cases hcase : db.feeds.find? (fun g => g.feed_url == url) with
    | none => rfl
    | some g =>
        exfalso
        unfold findFeedByUrl at hnone
        rw [hcase] at hnone
        cases hnone
  have hallold : ∀ g ∈ db.feeds, ¬ ((g.feed_url == url) = true) :=
    List.find?_eq_none.1 hfind0
  have hres2 : (add_feed fetch now db url name).2 = db.next_feed_id := by
    simp [add_feed, hok, hemp, hnone]
  have hres1 : (add_feed fetch now db url name).1
      = (fetch_feed_items fetch now
          { db with feeds := db.feeds ++ [⟨db.next_feed_id, url, name, none⟩],
                    next_feed_id := db.next_feed_id + 1 }
          db.next_feed_id url).1 := by
    simp [add_feed, hok, hemp, hnone]
  have hfeeds : (add_feed fetch now db url name).1.feeds
      = (db.feeds ++ [(⟨db.next_feed_id, url, name, none⟩ : Feed)]).map
          (fun x : Feed => if x.feed_id == db.next_feed_id
                           then { x with last_updated := some now } else x) := by
    rw [hres1]
    unfold fetch_feed_items
    rw [hok]
    simp only
    unfold update_feed_last_updated
    rw [foldl_insert_feeds]
  have hmapold : ∀ g ∈ db.feeds,
      ¬ (((if g.feed_id == db.next_feed_id
           then { g with last_updated := some now } else g).feed_url == url) = true) := by
    intro g hg
    by_cases hid : (g.feed_id == db.next_feed_id) = true
    · rw [if_pos hid]; exact hallold g hg
    · rw [if_neg hid]; exact hallold g hg
  have hfindnew : (add_feed fetch now db url name).1.feeds.find?
      (fun g => g.feed_url == url)
        = some ⟨db.next_feed_id, url, name, some now⟩ := by
    rw [hfeeds, List.map_append, List.find?_append]
    have h1 : (db.feeds.map
        (fun x : Feed => if x.feed_id == db.next_feed_id
                         then { x with last_updated := some now } else x)).find?
        (fun g => g.feed_url == url) = none := by
      rw [List.find?_eq_none]
      intro x hx
      rcases List.mem_map.1 hx with ⟨g, hg, hgx⟩
      rw [← hgx]
      exact hmapold g hg
    rw [h1, Option.none_or]
    simp
  constructor
  · unfold findFeedByUrl
    rw [hfindnew, hres2]
    rfl
  constructor
  · rw [hfeeds, List.map_append, List.filter_append]
    have h1 : (db.feeds.map
        (fun x : Feed => if x.feed_id == db.next_feed_id
                         then { x with last_updated := some now } else x)).filter
        (fun g => g.feed_url == url) = [] := by
      rw [List.filter_eq_nil_iff]
      intro x hx
      rcases List.mem_map.1 hx with ⟨g, hg, hgx⟩
      rw [← hgx]
      exact hmapold g hg
    rw [h1]
    simp
  · have hfound2 : findFeedByUrl (add_feed fetch now db url name).1 url
        = some (add_feed fetch now db url name).2 := by
      unfold findFeedByUrl
      rw [hfindnew, hres2]
      rfl
    exact add_feed_existing fetch now2 (add_feed fetch now db url name).1 url name2
      entries hok hemp _ hfound2

/-- Witness for C8: registering the same address twice on the empty store —
the second call returns the first call's id and leaves the store unchanged. -/
theorem C8_register_source_idempotent_witness :
    add_feed fetchDup 10 (add_feed fetchDup 10 emptyDB "u" "n").1 "u" "n"
      = ((add_feed fetchDup 10 emptyDB "u" "n").1, (add_feed fetchDup 10 emptyDB "u" "n").2) :=
  ((C8_register_source_idempotent fetchDup 10 10 emptyDB "u" "n" "n"
      [⟨"x", "dup", "d", 1⟩] rfl (by decide)).2 rfl).2.2

/-! ## C5 — empty batches leave the subscriber's schedule row untouched -/

/-- Concrete store for C5's witness: like `wDB` but the subscriber's username
is the placeholder "user_1" of their own database id 1, so the scheduler's
`str(user_id)` round-trip through `_get_db_user_id` resolves back to them. -/
def wDB2 : DB :=
  { users := [⟨1, "user_1", "1@telegram.user"⟩],
    feeds := [⟨1, "http://a.example/feed", "A", none⟩],
    items := [⟨2, 1, "t2", "l2", "d2", 2⟩, ⟨1, 1, "t1", "l1", "d1", 3⟩, ⟨3, 1, "t3", "l3", "d3", 1⟩],
    user_feeds := [(1, 1)],
    deliveries := [],
    schedules := [(1, ⟨true, 60, some 30⟩)],
    prefs := [(1, 5)],
    next_user_id := 2,
    next_feed_id := 2,
    next_news_id := 4 }

/-- Under an id whose stringified form resolves back to the subscriber, one
receipt write is a pure deliveries update. -/
theorem nm_mark_resolved (db : DB) (uid nid : Nat)
    (h : findUserByName db ("user_" ++ toString uid) = some uid) :
    (nm_mark_news_delivered db (toString uid) nid).1
      = { db with deliveries := insert_or_ignore_delivery db.deliveries uid nid } := by
  have hres : get_db_user_id db (toString uid) = (db, some uid) := by
    unfold get_db_user_id
    rw [h]
  simp [nm_mark_news_delivered, hres]

/-- Under a round-tripping id, a batch of receipt writes keeps the schedule
table and keeps resolving. -/
theorem deliverBatch_resolved (uid : Nat) (batch : List NewsItem) :
    ∀ db : DB, findUserByName db ("user_" ++ toString uid) = some uid →
      (deliverBatch db (toString uid) batch).schedules = db.schedules ∧
      findUserByName (deliverBatch db (toString uid) batch) ("user_" ++ toString uid)
        = some uid := by
  induction batch with
  | nil => intro db h; exact ⟨rfl, h⟩
  | cons b t ih =>
      intro db h
      have hstep := nm_mark_resolved db uid b.news_id h
      have hinv : findUserByName (nm_mark_news_delivered db (toString uid) b.news_id).1
          ("user_" ++ toString uid) = some uid := by
        rw [hstep]; exact h
      have hrec := ih (nm_mark_news_delivered db (toString uid) b.news_id).1 hinv
      show (deliverBatch (nm_mark_news_delivered db (toString uid) b.news_id).1
              (toString uid) t).schedules = db.schedules ∧
           findUserByName (deliverBatch (nm_mark_news_delivered db (toString uid) b.news_id).1
              (toString uid) t) ("user_" ++ toString uid) = some uid
      refine ⟨?_, hrec.2⟩
      rw [hrec.1, hstep]

/-- Under a round-tripping id, the final stamp lands on the subscriber's own
schedule row. -/
theorem nm_update_resolved (db : DB) (uid : Nat) (now : Int)
    (h : findUserByName db ("user_" ++ toString uid) = some uid) :
    (nm_update_last_delivery db (toString uid) now).1 = update_last_delivery db uid now := by
  have hres : get_db_user_id db (toString uid) = (db, some uid) := by
    unfold get_db_user_id
    rw [h]
  simp [nm_update_last_delivery, hres]

/-- C5: the per-user scheduler body never changes the subscriber's schedule
row except to stamp `last_delivery` with the tick time — a skipped
(disabled or not due) or empty-batch tick leaves the row exactly as it was
(even though the empty-batch tick's id resolution may still auto-register a
user elsewhere in the store), any change to the row implies an enabled, due
subscriber whose batch was non-empty and fully processed, and
`last_delivery` never decreases (for a non-negative interval); when the
stringified database id resolves back to the subscriber, a due non-empty
batch does stamp the row. -/
theorem C5_empty_batch_frame (now : Int) (db : DB) (uid : Nat) (s : Schedule) (t : Int)
    (hs : lookupSchedule db uid = some s) :
    ((nm_get_undelivered_news db (toString uid)).2 = [] →
      lookupSchedule (tickUser now db uid) uid = some s) ∧
    (lookupSchedule (tickUser now db uid) uid = some s ∨
      lookupSchedule (tickUser now db uid) uid
        = some { s with last_delivery := some now }) ∧
    (lookupSchedule (tickUser now db uid) uid ≠ some s →
      s.enabled = true ∧ isDue now s.last_delivery s.interval_minutes = true ∧
      (nm_get_undelivered_news db (toString uid)).2 ≠ [] ∧
      lookupSchedule (tickUser now db uid) uid
        = some { s with last_delivery := some now }) ∧
    (findUserByName db ("user_" ++ toString uid) = some uid →
      s.enabled = true →
      isDue now s.last_delivery s.interval_minutes = true →
      (nm_get_undelivered_news db (toString uid)).2 ≠ [] →
      lookupSchedule (tickUser now db uid) uid
        = some { s with last_delivery := some now }) ∧
    (0 ≤ s.interval_minutes → s.last_delivery = some t →
      lookupSchedule (tickUser now db uid) uid = some s ∨
      (lookupSchedule (tickUser now db uid) uid
          = some { s with last_delivery := some now } ∧ t ≤ now)) := by
  have hq : lookupSchedule (nm_get_undelivered_news db (toString uid)).1 uid = some s := by
    rw [nm_get_undelivered_news_fst]
    exact lookupSchedule_get_db_user_id db (toString uid) hs
  have hcase :
      lookupSchedule (tickUser now db uid) uid = some s ∨
      (s.enabled = true ∧ isDue now s.last_delivery s.interval_minutes = true ∧
       (nm_get_undelivered_news db (toString uid)).2 ≠ [] ∧
       lookupSchedule (tickUser now db uid) uid
         = some { s with last_delivery := some now }) := by
    by_cases he : s.enabled = true
    · by_cases hd : isDue now s.last_delivery s.interval_minutes = true
      · by_cases hb : (nm_get_undelivered_news db (toString uid)).2.isEmpty = true
        · left
          have htick : tickUser now db uid = (nm_get_undelivered_news db (toString uid)).1 := by
            simp [tickUser, hs, he, hd, hb]
          rw [htick]
          exact hq
        · have hb' : (nm_get_undelivered_news db (toString uid)).2.isEmpty = false := by
            revert hb
            cases (nm_get_undelivered_news db (toString uid)).2.isEmpty <;> simp
          have hbne : (nm_get_undelivered_news db (toString uid)).2 ≠ [] := by
            intro hnil
            rw [hnil] at hb'
            simp at hb'
          have htick : tickUser now db uid
              = (nm_update_last_delivery
                  (deliverBatch (nm_get_undelivered_news db (toString uid)).1 (toString uid)
                    ((nm_get_undelivered_news db (toString uid)).2.take 5))
                  (toString uid) now).1 := by
            simp [tickUser, hs, he, hd, hb']
          have hdb2 : lookupSchedule
              (deliverBatch (nm_get_undelivered_news db (toString uid)).1 (toString uid)
                ((nm_get_undelivered_news db (toString uid)).2.take 5)) uid = some s :=
            lookupSchedule_deliverBatch _ _ _ hq
          rcases lookupSchedule_nm_update_last_delivery _ (toString uid) now hdb2 with h | h
          · left
            rw [htick]
            exact h
          · right
            exact ⟨he, hd, hbne, by rw [htick]; exact h⟩
      · left
        have hd' : isDue now s.last_delivery s.interval_minutes = false := by
          revert hd
          cases isDue now s.last_delivery s.interval_minutes <;> simp
        have htick : tickUser now db uid = db := by
          simp [tickUser, hs, he, hd']
        rw [htick]
        exact hs
    · left
      have he' : s.enabled = false := by
        revert he
        cases s.enabled <;> simp
      have htick : tickUser now db uid = db := by
        simp [tickUser, hs, he']
      rw [htick]
      exact hs
  refine ⟨?_, ?_, ?_, ?_, ?_⟩
  · intro hnil
    rcases hcase with h | ⟨_, _, hbne, _⟩
    · exact h
    · exact absurd hnil hbne
  · rcases hcase with h | ⟨_, _, _, h⟩
    · exact Or.inl h
    · exact Or.inr h
  · intro hne
    rcases hcase with h | h
    · exact absurd h hne
    · exact h
  · intro hname he hd hbne
    have hb' : (nm_get_undelivered_news db (toString uid)).2.isEmpty = false := by
      cases h2 : (nm_get_undelivered_news db (toString uid)).2 with
      | nil => exact absurd h2 hbne
      | cons a l => rfl
    have hres : get_db_user_id db (toString uid) = (db, some uid) := by
      unfold get_db_user_id
      rw [hname]
    have hq1 : (nm_get_undelivered_news db (toString uid)).1 = db := by
      rw [nm_get_undelivered_news_fst, hres]
    have htick : tickUser now db uid
        = (nm_update_last_delivery
            (deliverBatch (nm_get_undelivered_news db (toString uid)).1 (toString uid)
              ((nm_get_undelivered_news db (toString uid)).2.take 5))
            (toString uid) now).1 := by
      simp [tickUser, hs, he, hd, hb']
    rw [htick, hq1]
    have hdel := deliverBatch_resolved uid
      ((nm_get_undelivered_news db (toString uid)).2.take 5) db hname
    rw [nm_update_resolved _ uid now hdel.2]
    unfold update_last_delivery
    rw [lookupSchedule_updateSchedule]
    rw [lookupSchedule_deliverBatch (toString uid)
      ((nm_get_undelivered_news db (toString uid)).2.take 5) db hs]
    rfl
  · intro hint hlast
    rcases hcase with h | ⟨_, hd, _, hstamp⟩
    · exact Or.inl h
    · right
      refine ⟨hstamp, ?_⟩
      rw [hlast] at hd
      unfold isDue at hd
      have h3 := of_decide_eq_true hd
      omega

/-- Witness for C5 at the concrete store whose subscriber's id round-trips:
the due tick at time 100 processes the non-empty three-item batch and stamps
the subscriber's row with the tick time. -/
theorem C5_empty_batch_frame_witness :
    lookupSchedule (tickUser 100 wDB2 1) 1 = some ⟨true, 60, some 100⟩ :=
  (C5_empty_batch_frame 100 wDB2 1 ⟨true, 60, some 30⟩ 30 (by decide)).2.2.2.1
    (by decide) rfl (by decide) (by decide)

end NewsBot
